import Mathlib

/-!
Shallow embedding of the ChongQing Identity Map questionnaire system: the
HTTP facade in `api/main.py` (the user-score and question-distribution
endpoints) together with the upstream Answer Aggregation & Scoring Engine
described in the specification.  Python dicts are modelled as insertion-
ordered association lists, redis counters as naturals, and the float
percentage formatting as exact rational rounding (round half to even, the
rule `:.2f` uses).
-/

/-- Question types from `config.questions.QuestionType`.  Types other than
single choice and combination (e.g. scale, free text) are represented by
`other` with their tag string. -/
inductive QuestionType where
  | singleChoice
  | combination
  | other (tag : String)
  deriving DecidableEq, Repr

/-- One entry of the `QUESTIONS` catalog: the fields of the per-question
config dict read by `get_question_distribution` (`type`, `label`,
`options`; `options` defaults to `[]` via `.get('options', [])`). -/
structure QuestionConfig where
  qtype : QuestionType
  label : String
  options : List String
  deriving DecidableEq, Repr

/-- Lookup in an association list with string keys (Python `dict.get`):
the value at the first matching key, if any. -/
def alookup {β : Type} (k : String) : List (String × β) → Option β
  | [] => none
  | (k2, v) :: rest => if k2 = k then some v else alookup k rest

/-- Python dict assignment `d[k] = v`: overwrite the value at an existing
key in place, otherwise append the new pair (insertion order preserved). -/
def dictInsert {β : Type} (k : String) (v : β) : List (String × β) → List (String × β)
  | [] => [(k, v)]
  | (k2, v2) :: rest =>
    if k2 = k then (k, v) :: rest else (k2, v2) :: dictInsert k v rest

/-- `int(stats.get(key, 0))`: the stored counter for `key`, defaulting
to zero when the stats hash has no such field. -/
def statsGet (stats : List (String × Nat)) (key : String) : Nat :=
  (alookup key stats).getD 0

/-- Fuel-driven worker for `removeAll`: scan left to right, deleting each
non-overlapping occurrence of `pat`, as Python `s.replace(pat, "")` does.
One unit of fuel is spent per character position, so fuel equal to the
length of the list always suffices. -/
def removeAllAux (pat : List Char) : Nat → List Char → List Char
  | _, [] => []
  | 0, l => l
  | fuel + 1, c :: rest =>
    if pat ≠ [] ∧ List.take pat.length (c :: rest) = pat then
      removeAllAux pat fuel (List.drop pat.length (c :: rest))
    else
      c :: removeAllAux pat fuel rest

/-- Python `s.replace(pat, "")`: delete every (non-overlapping, leftmost)
occurrence of `pat` in `s`, not only a leading one. -/
def removeAll (s pat : String) : String :=
  String.mk (removeAllAux pat.toList s.toList.length s.toList)

/-- Python `k.startswith(pre)`. -/
def strStartsWith (s p : String) : Bool :=
  List.isPrefixOf p.toList s.toList

/-- Round `num / den` half to even: the tie-breaking rule Python applies
when formatting a float with `:.2f`. -/
def roundHalfEven (num den : Nat) : Nat :=
  if 2 * (num % den) < den then num / den
  else if den < 2 * (num % den) then num / den + 1
  else if num / den % 2 = 0 then num / den else num / den + 1

/-- The percentage `(count / total) * 100` scaled to hundredths of a
percent and rounded to an integer: `round(count / total * 10000)`. -/
def pctScaled (count total : Nat) : Nat :=
  roundHalfEven (count * 10000) total

/-- Two-digit zero-padded decimal rendering of `n < 100`. -/
def twoDigits (n : Nat) : String :=
  if n < 10 then "0" ++ Nat.repr n else Nat.repr n

/-- Render a scaled percentage (hundredths of a percent) the way
`f"{percentage:.2f}%"` prints it: integer part, dot, two decimals, `%`. -/
def renderScaled (scaled : Nat) : String :=
  Nat.repr (scaled / 100) ++ "." ++ twoDigits (scaled % 100) ++ "%"

/-- `f"{(count / total_respondents) * 100:.2f}%"` from lines 102-103 of
`main.py`, with the float arithmetic modelled exactly over rationals. -/
def formatPct (count total : Nat) : String :=
  renderScaled (pctScaled count total)

/-- The store key prefixes of line 90 of `main.py`: `"option:"` for single
choice, `"combo:"` otherwise. -/
def keyPre (qt : QuestionType) : String :=
  if qt = QuestionType.singleChoice then "option:" else "combo:"

/-- The options reported for a question (lines 92-95 of `main.py`): the
declared catalog options, except that for a combination question they are
overwritten by discovery from the stats hash:
`[k.replace("combo:", "") for k in stats if k.startswith("combo:")]`. -/
def reportedOptions (qc : QuestionConfig) (stats : List (String × Nat)) : List String :=
  if qc.qtype = QuestionType.combination then
    (stats.filter (fun kv => strStartsWith kv.1 "combo:")).map
      (fun kv => removeAll kv.1 "combo:")
  else qc.options

/-- The message stored under the `"error"` key for non-tally-able
question types (line 105 of `main.py`). -/
def unsupportedMsg : String :=
  "Distribution for this question type is not supported via this endpoint."

/-- Response model of GET `/distribution/{question_id}`. -/
structure DistributionResponse where
  question_id : String
  label : String
  total_respondents : Nat
  distribution : List (String × String)
  deriving DecidableEq, Repr

/-- The tally branch of `get_question_distribution` (lines 89-103 of
`main.py`): build the `vote_counts` dict over the reported options by
reading each prefixed stats field, then the `distribution` dict of
formatted percentage strings. -/
def distBuild (qc : QuestionConfig) (stats : List (String × Nat)) (total : Nat) :
    List (String × String) :=
  let pre := keyPre qc.qtype
  let options := reportedOptions qc stats
  let vote_counts := options.foldl
    (fun d option => dictInsert option (statsGet stats (pre ++ option)) d) []
  vote_counts.foldl (fun d oc => dictInsert oc.1 (formatPct oc.2 total) d) []

/-- GET `/distribution/{question_id}` (`get_question_distribution` in
`main.py`): 404 when the question id is not in `QUESTIONS`; otherwise the
distribution dict built from the stats hash and the respondent counter of
the shared store (both passed explicitly here). -/
def get_question_distribution (catalog : List (String × QuestionConfig))
    (stats : List (String × Nat)) (total_respondents : Nat)
    (question_id : String) : Except Nat DistributionResponse :=
  match alookup question_id catalog with
  | none => Except.error 404
  | some question_config =>
    let distribution : List (String × String) :=
      if 0 < total_respondents then
        if question_config.qtype = QuestionType.singleChoice ∨
            question_config.qtype = QuestionType.combination then
          distBuild question_config stats total_respondents
        else [("error", unsupportedMsg)]
      else []
    Except.ok ⟨question_id, question_config.label, total_respondents, distribution⟩

/-- A Python exception as seen by the facade: a FastAPI `HTTPException`
carrying a status code and detail, or any other exception with its
message. -/
inductive PyExn where
  | httpExc (status : Nat) (detail : String)
  | otherExc (message : String)
  deriving DecidableEq, Repr

/-- `str(e)` on the exceptions above (starlette renders an
`HTTPException` as `"{status_code}: {detail}"`). -/
def pyStr : PyExn → String
  | PyExn.httpExc status detail => Nat.repr status ++ ": " ++ detail
  | PyExn.otherExc message => message

/-- Modelled from the spec: the backend collaborators of the user-score
endpoint that are not under `src/` — `RedisManager.get_user_answers`
(returns the user's stored answer dict, `none` for an unknown user, see
§4.1 of the spec) and the two `ScoringEngine` reads, which either return
a coordinate pair or raise some exception. -/
structure Backend where
  get_user_answers : String → Option (List (String × String))
  get_final_axes_scores : String → Except PyExn (ℚ × ℚ)
  get_average_axes_scores : Except PyExn (ℚ × ℚ)

/-- Python truthiness of `get_user_answers(user_id)` as tested by
`if not ...` on line 54 of `main.py`: falsy when absent or an empty dict. -/
def pyFalsy {β : Type} : Option (List β) → Bool
  | none => true
  | some l => l.isEmpty

/-- Response model of GET `/score/{user_id}`. -/
structure ScoreResponse where
  user_id : String
  final_x : ℚ
  final_y : ℚ
  average_x : ℚ
  average_y : ℚ
  deriving DecidableEq, Repr

/-- An HTTP error response produced by raising `HTTPException`. -/
structure HttpError where
  status : Nat
  detail : String
  deriving DecidableEq, Repr

/-- The body of the `try:` block of `get_user_score` (lines 50-66 of
`main.py`): raise `HTTPException(404)` when the user has no stored
answers, otherwise read the final and average coordinates. -/
def get_user_score_body (backend : Backend) (user_id : String) :
    Except PyExn ScoreResponse :=
  if pyFalsy (backend.get_user_answers user_id) then
    Except.error (PyExn.httpExc 404 "User not found")
  else do
    let fxy ← backend.get_final_axes_scores user_id
    let axy ← backend.get_average_axes_scores
    Except.ok ⟨user_id, fxy.1, fxy.2, axy.1, axy.2⟩

/-- GET `/score/{user_id}` (`get_user_score` in `main.py`): the `try:`
body wrapped by `except Exception as e: raise HTTPException(500, str(e))`.
`HTTPException` is a subclass of `Exception`, so the 404 raised inside the
`try:` block is caught here too and re-raised as a 500. -/
def get_user_score (backend : Backend) (user_id : String) :
    Except HttpError ScoreResponse :=
  match get_user_score_body backend user_id with
  | Except.ok r => Except.ok r
  | Except.error e => Except.error ⟨500, pyStr e⟩

/-- Status code of an endpoint result (200 on success). -/
def responseStatus {α : Type} : Except HttpError α → Nat
  | Except.ok _ => 200
  | Except.error e => e.status

/-- A backend whose store holds no answer record for any user. -/
def emptyBackend : Backend :=
  ⟨fun _ => none, fun _ => Except.ok (0, 0), Except.ok (0, 0)⟩

/-- Modelled from the spec: the Aggregator state of §4.3 (the backend
`redis_manager` / `scoring_engine` modules are not under `src/`).  The
current Answer Records live in an insertion-ordered per-user map, next to
the incrementally maintained running sums and the user counter of the
Global Aggregate.  `α` is the type of one user's answer set and stays
abstract, as does the pure scoring function applied to it. -/
structure AggState (α : Type) where
  records : List (String × α)
  sum_x : ℚ
  sum_y : ℚ
  user_count : Nat

/-- Modelled from the spec: the Aggregator state at process start —
no records, zero sums, zero users. -/
def initState (α : Type) : AggState α :=
  ⟨[], 0, 0, 0⟩

/-- Modelled from the spec: one submission, applied as one logically
atomic step (§4.3 steps 1-2 plus the Answer Store `put`): when the user
already has a record, subtract the old score from the running sums before
adding the new one and leave the user counter alone; on a first
submission add the new score and increment the counter.  Resubmission
replaces the user's record. -/
def submit {α : Type} (sc : α → ℚ × ℚ) (st : AggState α) (user_id : String)
    (answers : α) : AggState α :=
  let ns := sc answers
  match alookup user_id st.records with
  | some old =>
    let os := sc old
    ⟨dictInsert user_id answers st.records,
      st.sum_x - os.1 + ns.1, st.sum_y - os.2 + ns.2, st.user_count⟩
  | none =>
    ⟨dictInsert user_id answers st.records,
      st.sum_x + ns.1, st.sum_y + ns.2, st.user_count + 1⟩

/-- Modelled from the spec: a whole sequence of submissions applied in
order to the initial state. -/
def runSubmissions {α : Type} (sc : α → ℚ × ℚ) (subs : List (String × α)) :
    AggState α :=
  subs.foldl (fun st ua => submit sc st ua.1 ua.2) (initState α)

/-- Modelled from the spec: `global_average()` returns
`(sum_x / user_count, sum_y / user_count)`, or an explicit no-data result
when `user_count == 0` (never divide by zero). -/
def global_average {α : Type} (st : AggState α) : Option (ℚ × ℚ) :=
  if st.user_count = 0 then none
  else some (st.sum_x / st.user_count, st.sum_y / st.user_count)

/-- The from-scratch ground truth, written from the spec's words for the
round-trip comparison: the arithmetic mean of `score` over the current
Answer Record of every user who has ever submitted, recomputed over all
records, with an explicit no-data result when there are none. -/
def groundTruthAverage {α : Type} (sc : α → ℚ × ℚ)
    (records : List (String × α)) : Option (ℚ × ℚ) :=
  if records.length = 0 then none
  else
    some (((records.map (fun r => (sc r.2).1)).sum) / records.length,
      ((records.map (fun r => (sc r.2).2)).sum) / records.length)

/-- The invariant the Aggregator maintains (§3, Global Aggregate): the
running sums equal the sums of the current records' scores and the user
counter equals the number of current records. -/
def aggInv {α : Type} (sc : α → ℚ × ℚ) (st : AggState α) : Prop :=
  st.sum_x = (st.records.map (fun r => (sc r.2).1)).sum ∧
    st.sum_y = (st.records.map (fun r => (sc r.2).2)).sum ∧
    st.user_count = st.records.length

/-- C2 (evidence of a code bug): for a user with no Answer Record the
endpoint responds 500, never 404 — the `HTTPException(404)` raised inside
the `try:` block is swallowed by the blanket `except Exception` handler
and re-raised as a 500 with detail `str(e)`. -/
theorem C2_missing_user_gets_500_not_404 (backend : Backend) (user_id : String)
    (h : pyFalsy (backend.get_user_answers user_id) = true) :
    get_user_score backend user_id =
        Except.error ⟨500, "404: User not found"⟩ ∧
      responseStatus (get_user_score backend user_id) ≠ 404 := by
  refine ⟨?_, ?_⟩
  · simp only [get_user_score, get_user_score_body, h, if_true]
    rfl
  · simp [get_user_score, get_user_score_body, h, responseStatus]

/-- Witness for C2 at a concrete input: user `"u1"` against a backend
whose store is empty. -/
theorem C2_missing_user_gets_500_not_404_witness :
    pyFalsy (emptyBackend.get_user_answers "u1") = true ∧
      get_user_score emptyBackend "u1" =
          Except.error ⟨500, "404: User not found"⟩ ∧
        responseStatus (get_user_score emptyBackend "u1") ≠ 404 :=
  ⟨rfl, C2_missing_user_gets_500_not_404 emptyBackend "u1" rfl⟩

/-- C6: a question id absent from the catalog yields a 404 error response,
independently of whatever the store holds (the stats hash and the
respondent counter are arbitrary and never consulted). -/
theorem C6_unknown_question_404 (catalog : List (String × QuestionConfig))
    (question_id : String) (h : alookup question_id catalog = none)
    (stats : List (String × Nat)) (total : Nat) :
    get_question_distribution catalog stats total question_id = Except.error 404 := by
  simp [get_question_distribution, h]

/-- Witness for C6 at a concrete input: the empty catalog knows no
question `"q9"`, and the endpoint answers 404 whatever stats exist. -/
theorem C6_unknown_question_404_witness :
    alookup "q9" ([] : List (String × QuestionConfig)) = none ∧
      get_question_distribution [] [("option:a", 3)] 5 "q9" = Except.error 404 :=
  ⟨rfl, C6_unknown_question_404 [] "q9" rfl [("option:a", 3)] 5⟩

/-- C4: with zero respondents the endpoint returns the full response with
an explicit empty distribution; the percentage division is never reached
(the whole tally branch is skipped), so no division by zero can occur. -/
theorem C4_zero_respondents_empty_distribution
    (catalog : List (String × QuestionConfig)) (stats : List (String × Nat))
    (question_id : String) (qc : QuestionConfig)
    (h : alookup question_id catalog = some qc) :
    get_question_distribution catalog stats 0 question_id =
      Except.ok ⟨question_id, qc.label, 0, []⟩ := by
  simp [get_question_distribution, h]

/-- Witness for C4 at a concrete input: question `"q1"` of single-choice
type with recorded votes but a zero respondent counter. -/
theorem C4_zero_respondents_empty_distribution_witness :
    alookup "q1" [("q1", QuestionConfig.mk QuestionType.singleChoice "L" ["a", "b"])] =
        some (QuestionConfig.mk QuestionType.singleChoice "L" ["a", "b"]) ∧
      get_question_distribution
          [("q1", QuestionConfig.mk QuestionType.singleChoice "L" ["a", "b"])]
          [("option:a", 2)] 0 "q1" =
        Except.ok ⟨"q1", "L", 0, []⟩ :=
  ⟨rfl, C4_zero_respondents_empty_distribution
    [("q1", QuestionConfig.mk QuestionType.singleChoice "L" ["a", "b"])]
    [("option:a", 2)] "q1"
    (QuestionConfig.mk QuestionType.singleChoice "L" ["a", "b"]) rfl⟩

/-- C5 counterexample: the claim is not true unconditionally — a
non-tally-able (scale type) question with a zero respondent counter gets
an empty distribution with no `"error"` unsupported marker in it at all,
instead of the claimed explicit unsupported result. -/
theorem C5_counterexample_zero_respondents :
    Except.map (fun r : DistributionResponse => alookup "error" r.distribution)
        (get_question_distribution
          [("q3", QuestionConfig.mk (QuestionType.other "scale") "S" [])] [] 0 "q3") =
      Except.ok none := by
  simp [get_question_distribution, alookup, Except.map]

/-- C5 as amended: when the respondent counter is positive, a question
whose type is neither single choice nor combination reports the explicit
unsupported marker instead of a vote-tally distribution. -/
theorem C5_unsupported_type_reports_marker
    (catalog : List (String × QuestionConfig)) (stats : List (String × Nat))
    (question_id : String) (qc : QuestionConfig)
    (h : alookup question_id catalog = some qc)
    (h1 : qc.qtype ≠ QuestionType.singleChoice)
    (h2 : qc.qtype ≠ QuestionType.combination)
    (total : Nat) (htotal : 0 < total) :
    get_question_distribution catalog stats total question_id =
      Except.ok ⟨question_id, qc.label, total, [("error", unsupportedMsg)]⟩ := by
  simp [get_question_distribution, h, h1, h2, htotal]

/-- Witness for the amended C5 at a concrete input: a scale-type question
with one respondent. -/
theorem C5_unsupported_type_reports_marker_witness :
    alookup "q3" [("q3", QuestionConfig.mk (QuestionType.other "scale") "S" [])] =
        some (QuestionConfig.mk (QuestionType.other "scale") "S" []) ∧
      get_question_distribution
          [("q3", QuestionConfig.mk (QuestionType.other "scale") "S" [])] [] 1 "q3" =
        Except.ok ⟨"q3", "S", 1, [("error", unsupportedMsg)]⟩ :=
  ⟨rfl, C5_unsupported_type_reports_marker
    [("q3", QuestionConfig.mk (QuestionType.other "scale") "S" [])] [] "q3"
    (QuestionConfig.mk (QuestionType.other "scale") "S" []) rfl
    (by simp) (by simp) 1 (by simp)⟩

/-- C10: with a zero respondent counter the distribution field is empty
for a question of any type whatsoever, and the `"error"` unsupported
marker is produced exactly when the type is non-tally-able and the
respondent counter is positive — so at zero respondents an
unsupported-type question is indistinguishable, in the distribution
field, from a supported one. -/
theorem C10_unsupported_marker_only_with_respondents
    (catalog : List (String × QuestionConfig)) (stats : List (String × Nat))
    (question_id : String) (qc : QuestionConfig)
    (h : alookup question_id catalog = some qc) :
    Except.map DistributionResponse.distribution
        (get_question_distribution catalog stats 0 question_id) = Except.ok [] ∧
      (qc.qtype ≠ QuestionType.singleChoice → qc.qtype ≠ QuestionType.combination →
        ∀ total : Nat, 0 < total →
          Except.map DistributionResponse.distribution
              (get_question_distribution catalog stats total question_id) =
            Except.ok [("error", unsupportedMsg)]) := by
  constructor
  · simp [get_question_distribution, h, Except.map]
  · intro h1 h2 total htotal
    simp [get_question_distribution, h, htotal, h1, h2, Except.map]

/-- Witness for C10 at a concrete input: a scale-type question shows an
empty distribution at zero respondents and the unsupported marker at one
respondent. -/
theorem C10_unsupported_marker_only_with_respondents_witness :
    alookup "q2" [("q2", QuestionConfig.mk (QuestionType.other "scale") "S" [])] =
        some (QuestionConfig.mk (QuestionType.other "scale") "S" []) ∧
      Except.map DistributionResponse.distribution
          (get_question_distribution
            [("q2", QuestionConfig.mk (QuestionType.other "scale") "S" [])] [] 0 "q2") =
        Except.ok [] ∧
      Except.map DistributionResponse.distribution
          (get_question_distribution
            [("q2", QuestionConfig.mk (QuestionType.other "scale") "S" [])] [] 1 "q2") =
        Except.ok [("error", unsupportedMsg)] := by
  refine ⟨rfl, ?_, ?_⟩
  · exact (C10_unsupported_marker_only_with_respondents
      [("q2", QuestionConfig.mk (QuestionType.other "scale") "S" [])] [] "q2"
      (QuestionConfig.mk (QuestionType.other "scale") "S" []) rfl).1
  · exact (C10_unsupported_marker_only_with_respondents
      [("q2", QuestionConfig.mk (QuestionType.other "scale") "S" [])] [] "q2"
      (QuestionConfig.mk (QuestionType.other "scale") "S" []) rfl).2
      (by simp) (by simp) 1 (by simp)

/-- Looking a key up after a dict assignment: the new value at the
assigned key, the old association everywhere else. -/
theorem alookup_dictInsert {β : Type} (a k : String) (v : β)
    (d : List (String × β)) :
    alookup a (dictInsert k v d) = if a = k then some v else alookup a d := by
  induction d with
  | nil =>
    simp only [dictInsert, alookup]
    by_cases hak : a = k
    · subst hak; simp
    · simp [hak, Ne.symm hak]
  | cons p rest ih =>
    obtain ⟨k2, v2⟩ := p
    simp only [dictInsert]
    by_cases hk2 : k2 = k
    · subst hk2
      simp only [if_pos rfl, alookup]
      by_cases hak : a = k2
      · subst hak; simp
      · simp [hak, Ne.symm hak]
    · simp only [if_neg hk2, alookup, ih]
      by_cases hak : a = k2
      · subst hak
        simp [hk2]
      · simp [Ne.symm hak]

/-- A pair present after a dict assignment is the assigned pair or was
already present. -/
theorem mem_dictInsert {β : Type} (p : String × β) (k : String) (v : β)
    (d : List (String × β)) : p ∈ dictInsert k v d → p = (k, v) ∨ p ∈ d := by
  induction d with
  | nil =>
    intro hp
    simp only [dictInsert, List.mem_singleton] at hp
    exact Or.inl hp
  | cons q rest ih =>
    obtain ⟨k2, v2⟩ := q
    intro hp
    simp only [dictInsert] at hp
    by_cases h : k2 = k
    · rw [if_pos h] at hp
      rcases List.mem_cons.mp hp with h2 | h2
      · exact Or.inl h2
      · exact Or.inr (List.mem_cons_of_mem _ h2)
    · rw [if_neg h] at hp
      rcases List.mem_cons.mp hp with h2 | h2
      · exact Or.inr (h2 ▸ List.mem_cons_self _ _)
      · rcases ih h2 with h3 | h3
        · exact Or.inl h3
        · exact Or.inr (List.mem_cons_of_mem _ h3)

/-- A lookup succeeds exactly on the keys of the association list. -/
theorem alookup_isSome_iff {β : Type} (a : String) (d : List (String × β)) :
    (alookup a d).isSome = true ↔ a ∈ d.map Prod.fst := by
  induction d with
  | nil => simp [alookup]
  | cons p rest ih =>
    obtain ⟨k, v⟩ := p
    by_cases h : k = a
    · subst h; simp [alookup]
    · simp [alookup, h, ih, Ne.symm h]

/-- Folding dict assignments whose assigned value is a function of the
key: lookup afterwards returns that function on every key of the list and
falls through to the initial dict elsewhere. -/
theorem alookup_foldl_options {β : Type} (f : String → β) (l : List String)
    (init : List (String × β)) (a : String) :
    alookup a (l.foldl (fun d option => dictInsert option (f option) d) init) =
      if a ∈ l then some (f a) else alookup a init := by
  induction l generalizing init with
  | nil => simp
  | cons o rest ih =>
    simp only [List.foldl_cons, ih (dictInsert o (f o) init), alookup_dictInsert,
      List.mem_cons]
    by_cases h1 : a ∈ rest
    · simp [h1]
    · by_cases h2 : a = o <;> simp [h1, h2]

/-- Every pair produced by such a fold carries the value of its key under
the generating function (provided the initial dict already does). -/
theorem foldl_dictInsert_val (f : String → Nat) (l : List String)
    (init : List (String × Nat)) (hinit : ∀ p ∈ init, p.2 = f p.1) :
    ∀ p ∈ l.foldl (fun d option => dictInsert option (f option) d) init,
      p.2 = f p.1 := by
  induction l generalizing init with
  | nil => simpa using hinit
  | cons o rest ih =>
    intro p hp
    refine ih (dictInsert o (f o) init) ?_ p (by simpa using hp)
    intro q hq
    rcases mem_dictInsert q o (f o) init hq with h | h
    · rw [h]
    · exact hinit q h

/-- Folding the percentage-formatting dict assignments over a
`vote_counts` list whose values are a function `cnt` of their keys:
lookup afterwards formats `cnt` on every key of the list. -/
theorem alookup_foldl_formatPct (total : Nat) (cnt : String → Nat)
    (l : List (String × Nat)) (hl : ∀ p ∈ l, p.2 = cnt p.1)
    (init : List (String × String)) (a : String) :
    alookup a (l.foldl (fun d oc => dictInsert oc.1 (formatPct oc.2 total) d) init) =
      if a ∈ l.map Prod.fst then some (formatPct (cnt a) total)
      else alookup a init := by
  induction l generalizing init with
  | nil => simp
  | cons p rest ih =>
    obtain ⟨k, v⟩ := p
    have hk : v = cnt k := hl (k, v) (List.mem_cons_self _ _)
    have hrest : ∀ q ∈ rest, q.2 = cnt q.1 := fun q hq =>
      hl q (List.mem_cons_of_mem _ hq)
    simp only [List.foldl_cons, ih hrest, alookup_dictInsert, List.map_cons,
      List.mem_cons]
    by_cases h1 : a ∈ rest.map Prod.fst
    · simp [h1]
    · by_cases h2 : a = k <;> simp [h1, h2, hk]

/-- The rounded value is within half a unit (of the last kept digit) of
the exact quotient: `2 * |roundHalfEven(num, den) * den - num| ≤ den`. -/
theorem roundHalfEven_close (num den : Nat) (hden : 0 < den) :
    2 * ((roundHalfEven num den : ℤ) * den - num).natAbs ≤ den := by
  have hqr : den * (num / den) + num % den = num := Nat.div_add_mod num den
  have hr : num % den < den := Nat.mod_lt _ hden
  have hcast : ((den : ℤ)) * (num / den : Nat) + (num % den : Nat) = (num : ℤ) := by
    exact_mod_cast congrArg (fun n : Nat => (n : ℤ)) hqr
  have key1 : ((num / den : Nat) : ℤ) * den - num = -((num % den : Nat) : ℤ) := by
    linear_combination hcast
  have key2 : (((num / den : Nat) : ℤ) + 1) * den - num =
      (den : ℤ) - ((num % den : Nat) : ℤ) := by
    linear_combination hcast
  unfold roundHalfEven
  by_cases h1 : 2 * (num % den) < den
  · rw [if_pos h1]
    rw [key1, Int.natAbs_neg, Int.natAbs_ofNat]
    omega
  · rw [if_neg h1]
    have habs : (((num / den : Nat) : ℤ) + 1) * den - num =
        ((den - num % den : Nat) : ℤ) := by
      rw [key2]
      push_cast [Nat.cast_sub hr.le]
      ring
    by_cases h2 : den < 2 * (num % den)
    · rw [if_pos h2]
      have : (((num / den + 1 : Nat)) : ℤ) * den - num = ((den - num % den : Nat) : ℤ) := by
        push_cast
        push_cast at habs
        linarith [habs]
      rw [this, Int.natAbs_ofNat]
      omega
    · rw [if_neg h2]
      by_cases h3 : num / den % 2 = 0
      · rw [if_pos h3]
        rw [key1, Int.natAbs_neg, Int.natAbs_ofNat]
        omega
      · rw [if_neg h3]
        have : (((num / den + 1 : Nat)) : ℤ) * den - num = ((den - num % den : Nat) : ℤ) := by
          push_cast
          push_cast at habs
          linarith [habs]
        rw [this, Int.natAbs_ofNat]
        omega

/-- A zero count always yields a zero scaled percentage. -/
theorem pctScaled_zero (t : Nat) : pctScaled 0 t = 0 := by
  simp [pctScaled, roundHalfEven, Nat.zero_mod, Nat.zero_div]

/-- A count equal to half the respondents yields exactly 50 percent,
i.e. a scaled value of 5000 hundredths of a percent. -/
theorem pctScaled_half (c t : Nat) (ht : 0 < t) (h : 2 * c = t) :
    pctScaled c t = 5000 := by
  have hnum : c * 10000 = t * 5000 := by omega
  unfold pctScaled roundHalfEven
  have hdiv : c * 10000 / t = 5000 := by
    rw [hnum]
    exact Nat.mul_div_cancel_left 5000 ht
  have hmod : c * 10000 % t = 0 := by
    rw [hnum]
    exact Nat.mul_mod_right t 5000
  rw [hdiv, hmod]
  simp [ht]

/-- Rounding errors across a whole option list accumulate to at most half
a unit per option: the scaled percentages of counts summing to anything
stay within `length / 2` hundredths of the exact total percentage. -/
theorem pctScaled_sum_close (t : Nat) (ht : 0 < t) (l : List Nat) :
    2 * ((((l.map (fun c => pctScaled c t)).sum : Nat) : ℤ) * t -
        10000 * ((l.sum : Nat) : ℤ)).natAbs ≤ l.length * t := by
  induction l with
  | nil => simp
  | cons c rest ih =>
    simp only [List.map_cons, List.sum_cons, List.length_cons]
    have hA : 2 * ((pctScaled c t : ℤ) * t - 10000 * (c : ℤ)).natAbs ≤ t := by
      have hb := roundHalfEven_close (c * 10000) t ht
      have heq : ((roundHalfEven (c * 10000) t : ℤ)) * t - ((c * 10000 : Nat) : ℤ) =
          (pctScaled c t : ℤ) * t - 10000 * (c : ℤ) := by
        unfold pctScaled
        push_cast
        ring
      rw [heq] at hb
      exact hb
    have hsplit : ((pctScaled c t : ℤ) + ((rest.map (fun c => pctScaled c t)).sum : Nat)) * t -
        10000 * ((c : ℤ) + ((rest.sum : Nat) : ℤ)) =
        ((pctScaled c t : ℤ) * t - 10000 * (c : ℤ)) +
          ((((rest.map (fun c => pctScaled c t)).sum : Nat) : ℤ) * t -
            10000 * ((rest.sum : Nat) : ℤ)) := by
      ring
    have htri := Int.natAbs_add_le
      ((pctScaled c t : ℤ) * t - 10000 * (c : ℤ))
      ((((rest.map (fun c => pctScaled c t)).sum : Nat) : ℤ) * t -
        10000 * ((rest.sum : Nat) : ℤ))
    rw [Nat.cast_add, Nat.cast_add, hsplit]
    have hmul : (rest.length + 1) * t = rest.length * t + t := by ring
    omega

/-- Every pair written by the percentage-formatting fold carries the
formatted percentage of its key's count. -/
theorem foldl_formatPct_val (total : Nat) (cnt : String → Nat) :
    ∀ l : List (String × Nat), (∀ p ∈ l, p.2 = cnt p.1) →
      ∀ init : List (String × String),
        (∀ p ∈ init, p.2 = formatPct (cnt p.1) total) →
        ∀ p ∈ l.foldl (fun d oc => dictInsert oc.1 (formatPct oc.2 total) d) init,
          p.2 = formatPct (cnt p.1) total := by
  intro l
  induction l with
  | nil =>
    intro _ init hinit
    simpa using hinit
  | cons q rest ih =>
    intro hl init hinit p hp
    have hq : q.2 = cnt q.1 := hl q (List.mem_cons_self _ _)
    have hrest : ∀ w ∈ rest, w.2 = cnt w.1 := fun w hw =>
      hl w (List.mem_cons_of_mem _ hw)
    refine ih hrest (dictInsert q.1 (formatPct q.2 total) init) ?_ p (by simpa using hp)
    intro w hw
    rcases mem_dictInsert w q.1 (formatPct q.2 total) init hw with h | h
    · rw [h]
      simp [hq]
    · exact hinit w h

/-- Looking an option up in the built distribution: on a reported option
the formatted percentage of its prefixed stats count, `none` elsewhere. -/
theorem alookup_distBuild (qc : QuestionConfig) (stats : List (String × Nat))
    (total : Nat) (a : String) :
    alookup a (distBuild qc stats total) =
      if a ∈ reportedOptions qc stats
      then some (formatPct (statsGet stats (keyPre qc.qtype ++ a)) total)
      else none := by
  have hvc : ∀ p ∈ (reportedOptions qc stats).foldl
      (fun d option => dictInsert option (statsGet stats (keyPre qc.qtype ++ option)) d)
      [], p.2 = statsGet stats (keyPre qc.qtype ++ p.1) :=
    foldl_dictInsert_val (fun option => statsGet stats (keyPre qc.qtype ++ option))
      (reportedOptions qc stats) [] (by simp)
  unfold distBuild
  rw [alookup_foldl_formatPct total
    (fun option => statsGet stats (keyPre qc.qtype ++ option)) _ hvc []]
  have hkeys : a ∈ ((reportedOptions qc stats).foldl
      (fun d option => dictInsert option (statsGet stats (keyPre qc.qtype ++ option)) d)
      []).map Prod.fst ↔ a ∈ reportedOptions qc stats := by
    rw [← alookup_isSome_iff, alookup_foldl_options]
    by_cases h : a ∈ reportedOptions qc stats <;> simp [h, alookup]
  by_cases h : a ∈ reportedOptions qc stats
  · rw [if_pos (hkeys.mpr h), if_pos h]
  · rw [if_neg (fun hx => h (hkeys.mp hx)), if_neg h]
    simp [alookup]

/-- Every pair of the built distribution is a reported option mapped to
the formatted percentage of its prefixed stats count. -/
theorem distBuild_val (qc : QuestionConfig) (stats : List (String × Nat))
    (total : Nat) :
    ∀ p ∈ distBuild qc stats total,
      p.2 = formatPct (statsGet stats (keyPre qc.qtype ++ p.1)) total := by
  have hvc : ∀ p ∈ (reportedOptions qc stats).foldl
      (fun d option => dictInsert option (statsGet stats (keyPre qc.qtype ++ option)) d)
      [], p.2 = statsGet stats (keyPre qc.qtype ++ p.1) :=
    foldl_dictInsert_val (fun option => statsGet stats (keyPre qc.qtype ++ option))
      (reportedOptions qc stats) [] (by simp)
  unfold distBuild
  exact foldl_formatPct_val total
    (fun option => statsGet stats (keyPre qc.qtype ++ option)) _ hvc [] (by simp)

/-- For a tally-able question with respondents the endpoint answers with
exactly the built distribution. -/
theorem gqd_tally_eq (catalog : List (String × QuestionConfig))
    (stats : List (String × Nat)) (total : Nat) (question_id : String)
    (qc : QuestionConfig) (h : alookup question_id catalog = some qc)
    (htype : qc.qtype = QuestionType.singleChoice ∨
      qc.qtype = QuestionType.combination)
    (htotal : 0 < total) :
    get_question_distribution catalog stats total question_id =
      Except.ok ⟨question_id, qc.label, total, distBuild qc stats total⟩ := by
  simp [get_question_distribution, h, htotal, htype]

/-- C9: for a single-choice question with respondents, the distribution
has an entry for exactly the catalog-declared options — a declared option
with no recorded stats field shows as `"0.00%"` (its count defaults to
zero), and a stats key for an undeclared option is omitted. -/
theorem C9_single_choice_reports_declared_options
    (catalog : List (String × QuestionConfig)) (stats : List (String × Nat))
    (question_id : String) (qc : QuestionConfig) (total : Nat)
    (h : alookup question_id catalog = some qc)
    (htype : qc.qtype = QuestionType.singleChoice) (htotal : 0 < total) :
    ∀ r, get_question_distribution catalog stats total question_id = Except.ok r →
      (∀ o, (alookup o r.distribution).isSome = true ↔ o ∈ qc.options) ∧
        (∀ o ∈ qc.options, alookup ("option:" ++ o) stats = none →
          alookup o r.distribution = some "0.00%") := by
  intro r hr
  have hre : Except.ok (ε := Nat)
      (DistributionResponse.mk question_id qc.label total (distBuild qc stats total)) =
      Except.ok r :=
    (gqd_tally_eq catalog stats total question_id qc h (Or.inl htype) htotal).symm.trans hr
  have hr2 : r = ⟨question_id, qc.label, total, distBuild qc stats total⟩ :=
    (Except.ok.inj hre).symm
  subst hr2
  have hopts : reportedOptions qc stats = qc.options := by
    simp [reportedOptions, htype]
  have hpre : keyPre qc.qtype = "option:" := by
    simp [keyPre, htype]
  constructor
  · intro o
    rw [show (⟨question_id, qc.label, total,
        distBuild qc stats total⟩ : DistributionResponse).distribution =
      distBuild qc stats total from rfl]
    rw [alookup_distBuild, hopts]
    by_cases hmem : o ∈ qc.options <;> simp [hmem]
  · intro o hmem hnone
    rw [show (⟨question_id, qc.label, total,
        distBuild qc stats total⟩ : DistributionResponse).distribution =
      distBuild qc stats total from rfl]
    rw [alookup_distBuild, hopts, if_pos hmem, hpre]
    have hzero : statsGet stats ("option:" ++ o) = 0 := by
      simp [statsGet, hnone]
    rw [hzero]
    have hfmt : formatPct 0 total = "0.00%" := by
      rw [formatPct, pctScaled_zero]
      rfl
    rw [hfmt]

/-- Witness for C9 at a concrete input: a single-choice question with
declared options `a`, `b`; the store has votes for `a` and for the
undeclared option `z` only. -/
theorem C9_single_choice_reports_declared_options_witness :
    alookup "q1" [("q1", QuestionConfig.mk QuestionType.singleChoice "L" ["a", "b"])] =
        some (QuestionConfig.mk QuestionType.singleChoice "L" ["a", "b"]) ∧
      (QuestionConfig.mk QuestionType.singleChoice "L" ["a", "b"]).qtype =
        QuestionType.singleChoice ∧
      0 < 2 ∧
      (∀ r, get_question_distribution
            [("q1", QuestionConfig.mk QuestionType.singleChoice "L" ["a", "b"])]
            [("option:a", 2), ("option:z", 7)] 2 "q1" = Except.ok r →
        (∀ o, (alookup o r.distribution).isSome = true ↔ o ∈ ["a", "b"]) ∧
          (∀ o ∈ ["a", "b"], alookup ("option:" ++ o) [("option:a", 2), ("option:z", 7)] = none →
            alookup o r.distribution = some "0.00%")) :=
  ⟨rfl, rfl, by decide,
    C9_single_choice_reports_declared_options
      [("q1", QuestionConfig.mk QuestionType.singleChoice "L" ["a", "b"])]
      [("option:a", 2), ("option:z", 7)] "q1"
      (QuestionConfig.mk QuestionType.singleChoice "L" ["a", "b"]) 2 rfl rfl (by decide)⟩

/-- C3: for a tally-able question with respondents, every reported option
carries the string `f"{(count / total) * 100:.2f}%"` for its stored
count; the rounded scaled value is within half a hundredth of the exact
percentage, and a count equal to half the respondents renders exactly as
`"50.00%"`. -/
theorem C3_percentage_formatting
    (catalog : List (String × QuestionConfig)) (stats : List (String × Nat))
    (question_id : String) (qc : QuestionConfig) (total : Nat)
    (h : alookup question_id catalog = some qc)
    (htype : qc.qtype = QuestionType.singleChoice ∨
      qc.qtype = QuestionType.combination)
    (htotal : 0 < total) :
    (∀ r, get_question_distribution catalog stats total question_id = Except.ok r →
        ∀ p ∈ r.distribution,
          p.2 = formatPct (statsGet stats (keyPre qc.qtype ++ p.1)) total) ∧
      (∀ c t : Nat, 0 < t →
        2 * ((pctScaled c t : ℤ) * t - 10000 * (c : ℤ)).natAbs ≤ t) ∧
      (∀ c t : Nat, 0 < t → 2 * c = t → formatPct c t = "50.00%") := by
  refine ⟨?_, ?_, ?_⟩
  · intro r hr
    have hre : Except.ok (ε := Nat)
        (DistributionResponse.mk question_id qc.label total (distBuild qc stats total)) =
        Except.ok r :=
      (gqd_tally_eq catalog stats total question_id qc h htype htotal).symm.trans hr
    have hr2 : r = ⟨question_id, qc.label, total, distBuild qc stats total⟩ :=
      (Except.ok.inj hre).symm
    subst hr2
    exact distBuild_val qc stats total
  · intro c t ht
    have hb := roundHalfEven_close (c * 10000) t ht
    have heq : ((roundHalfEven (c * 10000) t : ℤ)) * t - ((c * 10000 : Nat) : ℤ) =
        (pctScaled c t : ℤ) * t - 10000 * (c : ℤ) := by
      unfold pctScaled
      push_cast
      ring
    rw [heq] at hb
    exact hb
  · intro c t ht h2
    rw [formatPct, pctScaled_half c t ht h2]
    rfl

/-- Witness for C3 at a concrete input: question `q1` with options `a`,
`b`, one vote each, two respondents — both render as `"50.00%"`. -/
theorem C3_percentage_formatting_witness :
    alookup "q1" [("q1", QuestionConfig.mk QuestionType.singleChoice "L" ["a", "b"])] =
        some (QuestionConfig.mk QuestionType.singleChoice "L" ["a", "b"]) ∧
      ((QuestionConfig.mk QuestionType.singleChoice "L" ["a", "b"]).qtype =
          QuestionType.singleChoice ∨
        (QuestionConfig.mk QuestionType.singleChoice "L" ["a", "b"]).qtype =
          QuestionType.combination) ∧
      0 < 2 ∧
      ((∀ r, get_question_distribution
            [("q1", QuestionConfig.mk QuestionType.singleChoice "L" ["a", "b"])]
            [("option:a", 1), ("option:b", 1)] 2 "q1" = Except.ok r →
          ∀ p ∈ r.distribution,
            p.2 = formatPct
              (statsGet [("option:a", 1), ("option:b", 1)]
                (keyPre (QuestionConfig.mk QuestionType.singleChoice "L" ["a", "b"]).qtype
                  ++ p.1)) 2) ∧
        (∀ c t : Nat, 0 < t →
          2 * ((pctScaled c t : ℤ) * t - 10000 * (c : ℤ)).natAbs ≤ t) ∧
        (∀ c t : Nat, 0 < t → 2 * c = t → formatPct c t = "50.00%")) :=
  ⟨rfl, Or.inl rfl, by decide,
    C3_percentage_formatting
      [("q1", QuestionConfig.mk QuestionType.singleChoice "L" ["a", "b"])]
      [("option:a", 1), ("option:b", 1)] "q1"
      (QuestionConfig.mk QuestionType.singleChoice "L" ["a", "b"]) 2
      rfl (Or.inl rfl) (by decide)⟩

/-- C7 counterexample: line 95 of `main.py` uses
`k.replace("combo:", "")`, which deletes every occurrence of the
substring, not only the leading prefix.  The stats key
`"combo:combo:x"` therefore reports option `"x"` — while stripping the
prefix once, as the claim states, would report option `"combo:x"`. -/
theorem C7_counterexample_replace_deletes_all :
    Except.map (fun r : DistributionResponse => r.distribution.map Prod.fst)
        (get_question_distribution
          [("q4", QuestionConfig.mk QuestionType.combination "C" [])]
          [("combo:combo:x", 1)] 1 "q4") =
      Except.ok ["x"] ∧ ("x" : String) ≠ "combo:x" :=
  ⟨rfl, by decide⟩

/-- C7 as amended: for a combination question with respondents the option
set of the distribution is discovered from observed data — an option is
reported exactly when some stats key starting with `"combo:"` reduces to
it after deleting every occurrence of `"combo:"` (this equals stripping
the prefix whenever the remainder does not itself contain `"combo:"`);
the catalog's predeclared option list is not consulted. -/
theorem C7_combination_options_discovered
    (catalog : List (String × QuestionConfig)) (stats : List (String × Nat))
    (question_id : String) (qc : QuestionConfig) (total : Nat)
    (h : alookup question_id catalog = some qc)
    (htype : qc.qtype = QuestionType.combination) (htotal : 0 < total) :
    ∀ r, get_question_distribution catalog stats total question_id = Except.ok r →
      ∀ o, (alookup o r.distribution).isSome = true ↔
        ∃ kv ∈ stats, strStartsWith kv.1 "combo:" = true ∧
          removeAll kv.1 "combo:" = o := by
  intro r hr
  have hre : Except.ok (ε := Nat)
      (DistributionResponse.mk question_id qc.label total (distBuild qc stats total)) =
      Except.ok r :=
    (gqd_tally_eq catalog stats total question_id qc h (Or.inr htype) htotal).symm.trans hr
  have hr2 : r = ⟨question_id, qc.label, total, distBuild qc stats total⟩ :=
    (Except.ok.inj hre).symm
  subst hr2
  intro o
  rw [show (⟨question_id, qc.label, total,
      distBuild qc stats total⟩ : DistributionResponse).distribution =
    distBuild qc stats total from rfl]
  rw [alookup_distBuild]
  have hopts : reportedOptions qc stats =
      (stats.filter (fun kv => strStartsWith kv.1 "combo:")).map
        (fun kv => removeAll kv.1 "combo:") := by
    simp [reportedOptions, htype]
  rw [hopts]
  by_cases hmem : o ∈ (stats.filter (fun kv => strStartsWith kv.1 "combo:")).map
      (fun kv => removeAll kv.1 "combo:")
  · rw [if_pos hmem]
    simp only [Option.isSome_some, true_iff]
    rcases List.mem_map.mp hmem with ⟨kv, hkv, hkv2⟩
    rcases List.mem_filter.mp hkv with ⟨hkv3, hkv4⟩
    exact ⟨kv, hkv3, hkv4, hkv2⟩
  · rw [if_neg hmem]
    simp only [Option.isSome_none]
    constructor
    · intro hfalse
      exact absurd hfalse (by simp)
    · intro ⟨kv, hkv, hkv2, hkv3⟩
      exact absurd (List.mem_map.mpr ⟨kv, List.mem_filter.mpr ⟨hkv, hkv2⟩, hkv3⟩) hmem

/-- Witness for the amended C7 at a concrete input: one observed combo
key `combo:hot` next to an unrelated key; the discovered option is
`hot` although the catalog predeclares `["cold"]`. -/
theorem C7_combination_options_discovered_witness :
    alookup "q5" [("q5", QuestionConfig.mk QuestionType.combination "C" ["cold"])] =
        some (QuestionConfig.mk QuestionType.combination "C" ["cold"]) ∧
      (QuestionConfig.mk QuestionType.combination "C" ["cold"]).qtype =
        QuestionType.combination ∧
      0 < 3 ∧
      (∀ r, get_question_distribution
            [("q5", QuestionConfig.mk QuestionType.combination "C" ["cold"])]
            [("combo:hot", 2), ("other", 9)] 3 "q5" = Except.ok r →
        ∀ o, (alookup o r.distribution).isSome = true ↔
          ∃ kv ∈ [(("combo:hot" : String), (2 : Nat)), ("other", 9)],
            strStartsWith kv.1 "combo:" = true ∧ removeAll kv.1 "combo:" = o) :=
  ⟨rfl, rfl, by decide,
    C7_combination_options_discovered
      [("q5", QuestionConfig.mk QuestionType.combination "C" ["cold"])]
      [("combo:hot", 2), ("other", 9)] "q5"
      (QuestionConfig.mk QuestionType.combination "C" ["cold"]) 3 rfl rfl (by decide)⟩

/-- C8: for a single-choice question with respondents whose stored counts
over the declared options sum to the respondent count, every declared
option is reported with its rounded percentage and the scaled (hundredths
of a percent) percentages sum to 10000 up to the accumulated rounding
tolerance of half a hundredth per option:
`2 * |sum - 10000| ≤ number of options`. -/
theorem C8_single_choice_percentages_sum
    (catalog : List (String × QuestionConfig)) (stats : List (String × Nat))
    (question_id : String) (qc : QuestionConfig) (total : Nat)
    (h : alookup question_id catalog = some qc)
    (htype : qc.qtype = QuestionType.singleChoice)
    (htotal : 0 < total)
    (hsum : (qc.options.map (fun o => statsGet stats ("option:" ++ o))).sum = total) :
    (∀ r, get_question_distribution catalog stats total question_id = Except.ok r →
        ∀ o ∈ qc.options, alookup o r.distribution =
          some (renderScaled (pctScaled (statsGet stats ("option:" ++ o)) total))) ∧
      2 * ((((qc.options.map
              (fun o => pctScaled (statsGet stats ("option:" ++ o)) total)).sum : Nat) : ℤ)
            - 10000).natAbs ≤ qc.options.length := by
  have hpre : keyPre qc.qtype = "option:" := by
    simp [keyPre, htype]
  have hopts : reportedOptions qc stats = qc.options := by
    simp [reportedOptions, htype]
  constructor
  · intro r hr o hmem
    have hre : Except.ok (ε := Nat)
        (DistributionResponse.mk question_id qc.label total (distBuild qc stats total)) =
        Except.ok r :=
      (gqd_tally_eq catalog stats total question_id qc h (Or.inl htype) htotal).symm.trans hr
    have hr2 : r = ⟨question_id, qc.label, total, distBuild qc stats total⟩ :=
      (Except.ok.inj hre).symm
    subst hr2
    rw [show (⟨question_id, qc.label, total,
        distBuild qc stats total⟩ : DistributionResponse).distribution =
      distBuild qc stats total from rfl]
    rw [alookup_distBuild, hopts, if_pos hmem, hpre]
    rfl
  · have hclose := pctScaled_sum_close total htotal
      (qc.options.map (fun o => statsGet stats ("option:" ++ o)))
    rw [List.map_map, hsum, List.length_map] at hclose
    have hcomp : (fun c => pctScaled c total) ∘
        (fun o => statsGet stats ("option:" ++ o)) =
        fun o => pctScaled (statsGet stats ("option:" ++ o)) total := rfl
    rw [hcomp] at hclose
    set S : Nat :=
      (qc.options.map (fun o => pctScaled (statsGet stats ("option:" ++ o)) total)).sum
      with hS
    have hfactor : (S : ℤ) * total - 10000 * (total : ℤ) =
        ((S : ℤ) - 10000) * total := by ring
    rw [hfactor] at hclose
    rw [Int.natAbs_mul, Int.natAbs_ofNat] at hclose
    have hrw : 2 * (((S : ℤ) - 10000).natAbs * total) =
        2 * ((S : ℤ) - 10000).natAbs * total := by ring
    rw [hrw] at hclose
    exact Nat.le_of_mul_le_mul_right hclose htotal

/-- Witness for C8 at a concrete input: three options with one vote each
among three respondents; the three scaled percentages 3333, 3333, 3334
sum to 10000 exactly. -/
theorem C8_single_choice_percentages_sum_witness :
    alookup "q6" [("q6", QuestionConfig.mk QuestionType.singleChoice "L" ["a", "b", "c"])] =
        some (QuestionConfig.mk QuestionType.singleChoice "L" ["a", "b", "c"]) ∧
      (QuestionConfig.mk QuestionType.singleChoice "L" ["a", "b", "c"]).qtype =
        QuestionType.singleChoice ∧
      0 < 3 ∧
      ((["a", "b", "c"].map (fun o =>
          statsGet [("option:a", 1), ("option:b", 1), ("option:c", 1)]
            ("option:" ++ o))).sum = 3) ∧
      ((∀ r, get_question_distribution
            [("q6", QuestionConfig.mk QuestionType.singleChoice "L" ["a", "b", "c"])]
            [("option:a", 1), ("option:b", 1), ("option:c", 1)] 3 "q6" = Except.ok r →
          ∀ o ∈ ["a", "b", "c"], alookup o r.distribution =
            some (renderScaled (pctScaled
              (statsGet [("option:a", 1), ("option:b", 1), ("option:c", 1)]
                ("option:" ++ o)) 3))) ∧
        2 * (((["a", "b", "c"].map (fun o => pctScaled
              (statsGet [("option:a", 1), ("option:b", 1), ("option:c", 1)]
                ("option:" ++ o)) 3)).sum : ℤ) - 10000).natAbs ≤ 3) :=
  ⟨rfl, rfl, by decide, by decide,
    C8_single_choice_percentages_sum
      [("q6", QuestionConfig.mk QuestionType.singleChoice "L" ["a", "b", "c"])]
      [("option:a", 1), ("option:b", 1), ("option:c", 1)] "q6"
      (QuestionConfig.mk QuestionType.singleChoice "L" ["a", "b", "c"]) 3
      rfl rfl (by decide) (by decide)⟩

/-- Assigning a key absent from the map appends the pair at the end. -/
theorem dictInsert_of_alookup_none {β : Type} (k : String) (v : β)
    (recs : List (String × β)) (h : alookup k recs = none) :
    dictInsert k v recs = recs ++ [(k, v)] := by
  induction recs with
  | nil => rfl
  | cons p rest ih =>
    obtain ⟨k2, v2⟩ := p
    simp only [alookup] at h
    by_cases hk : k2 = k
    · rw [if_pos hk] at h
      exact absurd h (by simp)
    · rw [if_neg hk] at h
      simp [dictInsert, hk, ih h]

/-- Replacing the record stored at `k` changes a sum over the map by
removing the old pair's contribution and adding the new pair's. -/
theorem dictInsert_map_sum_some {α : Type} (g : String × α → ℚ) (k : String)
    (v old : α) (recs : List (String × α)) (h : alookup k recs = some old) :
    ((dictInsert k v recs).map g).sum =
      (recs.map g).sum - g (k, old) + g (k, v) := by
  induction recs with
  | nil => simp [alookup] at h
  | cons p rest ih =>
    obtain ⟨k2, v2⟩ := p
    simp only [alookup] at h
    by_cases hk : k2 = k
    · rw [if_pos hk] at h
      have hv : v2 = old := Option.some.inj h
      subst hv
      subst hk
      have hd : dictInsert k2 v ((k2, v2) :: rest) = (k2, v) :: rest := by
        simp [dictInsert]
      rw [hd]
      simp only [List.map_cons, List.sum_cons]
      ring
    · rw [if_neg hk] at h
      simp only [dictInsert, if_neg hk, List.map_cons, List.sum_cons, ih h]
      ring

/-- Replacing the record stored at an existing key keeps the map's size. -/
theorem dictInsert_length_some {α : Type} (k : String) (v old : α)
    (recs : List (String × α)) (h : alookup k recs = some old) :
    (dictInsert k v recs).length = recs.length := by
  induction recs with
  | nil => simp [alookup] at h
  | cons p rest ih =>
    obtain ⟨k2, v2⟩ := p
    simp only [alookup] at h
    by_cases hk : k2 = k
    · simp [dictInsert, hk]
    · rw [if_neg hk] at h
      simp [dictInsert, hk, ih h]

/-- One submission step keeps the Aggregator invariant: the delta-based
update (subtract the old score before adding the new one) matches the
record replacement in the store. -/
theorem submit_preserves_aggInv {α : Type} (sc : α → ℚ × ℚ) (st : AggState α)
    (user_id : String) (answers : α) (hinv : aggInv sc st) :
    aggInv sc (submit sc st user_id answers) := by
  obtain ⟨hx, hy, hc⟩ := hinv
  cases hlook : alookup user_id st.records with
  | some old =>
    have hsubmit : submit sc st user_id answers =
        ⟨dictInsert user_id answers st.records,
          st.sum_x - (sc old).1 + (sc answers).1,
          st.sum_y - (sc old).2 + (sc answers).2, st.user_count⟩ := by
      unfold submit
      rw [hlook]
    unfold aggInv
    rw [hsubmit]
    refine ⟨?_, ?_, ?_⟩
    · rw [dictInsert_map_sum_some (fun r => (sc r.2).1) user_id answers old
        st.records hlook, ← hx]
    · rw [dictInsert_map_sum_some (fun r => (sc r.2).2) user_id answers old
        st.records hlook, ← hy]
    · rw [dictInsert_length_some user_id answers old st.records hlook]
      exact hc
  | none =>
    have hsubmit : submit sc st user_id answers =
        ⟨dictInsert user_id answers st.records,
          st.sum_x + (sc answers).1, st.sum_y + (sc answers).2,
          st.user_count + 1⟩ := by
      unfold submit
      rw [hlook]
    unfold aggInv
    rw [hsubmit]
    refine ⟨?_, ?_, ?_⟩
    · simp [dictInsert_of_alookup_none user_id answers st.records hlook, hx]
    · simp [dictInsert_of_alookup_none user_id answers st.records hlook, hy]
    · simp [dictInsert_of_alookup_none user_id answers st.records hlook, hc]

/-- The Aggregator invariant holds along any submission sequence. -/
theorem foldl_submit_aggInv {α : Type} (sc : α → ℚ × ℚ)
    (subs : List (String × α)) :
    ∀ st : AggState α, aggInv sc st →
      aggInv sc (subs.foldl (fun st2 ua => submit sc st2 ua.1 ua.2) st) := by
  induction subs with
  | nil =>
    intro st h
    simpa using h
  | cons ua rest ih =>
    intro st h
    simp only [List.foldl_cons]
    exact ih _ (submit_preserves_aggInv sc st ua.1 ua.2 h)

/-- The state reached from the initial state satisfies the invariant. -/
theorem runSubmissions_aggInv {α : Type} (sc : α → ℚ × ℚ)
    (subs : List (String × α)) : aggInv sc (runSubmissions sc subs) :=
  foldl_submit_aggInv sc subs (initState α)
    ⟨by simp [initState], by simp [initState], by simp [initState]⟩

/-- C1: after every sequence of submissions the incrementally maintained
`global_average()` — `(sum_x / user_count, sum_y / user_count)` — equals
the arithmetic mean of the score over the current Answer Record of every
user who has ever submitted, recomputed from scratch; the maintained
value never drifts from the ground truth. -/
theorem C1_global_average_matches_recomputation {α : Type} (sc : α → ℚ × ℚ)
    (subs : List (String × α)) :
    global_average (runSubmissions sc subs) =
      groundTruthAverage sc (runSubmissions sc subs).records := by
  obtain ⟨hx, hy, hc⟩ := runSubmissions_aggInv sc subs
  unfold global_average groundTruthAverage
  rw [hx, hy, hc]
